import Mathlib

/-!
Verification of the retail-operations copilot against its specification.

The Python sources are embedded shallowly:
pure functions become Lean functions on `List Char` / `String` / `ℚ`
(similarity scores are exact rationals, which is faithful for the
comparisons and sorting the code performs);
calls to external capabilities (vector index, embedding gateway,
set-iteration order of the CPython runtime, float rendering) are
modelled as explicit environment parameters.
-/

namespace RetailOps

/-! ## Configuration constants, from src/retrieval/config.py -/

def CHUNK_SIZE : Nat := 1000

def CHUNK_OVERLAP : Nat := 200

def MIN_CHUNK_SIZE : Nat := 100

def MIN_SIMILARITY_SCORE : ℚ := 1/2

def TOP_K_RESULTS : Nat := 5

/-! ## Chunker, from src/retrieval/ingestion.py

Python strings are modelled as `List Char`.  The helpers below embed the
string primitives the chunker uses: str.strip, slicing, and str.rfind. -/

/-- Whitespace test used by Python str.strip (the ASCII whitespace
characters; the corpus driving the chunker is ASCII text). -/
def pyIsSpace (c : Char) : Bool :=
  c == ' ' || c == '\t' || c == '\n' || c == '\r' || c == '\x0b' || c == '\x0c'

/-- Python s.strip(): remove whitespace from both ends. -/
def pyStrip (s : List Char) : List Char :=
  ((s.dropWhile pyIsSpace).reverse.dropWhile pyIsSpace).reverse

/-- Python s.strip() on `String`. -/
def pyStripStr (s : String) : String :=
  String.mk (pyStrip s.data)

/-- Python text[start:stop] for nonnegative bounds (clamped at the length). -/
def pySlice (text : List Char) (start stop : Nat) : List Char :=
  (text.drop start).take (stop - start)

/-- Python text.rfind(" ", start, stop): the largest index i with
start ≤ i < stop and text[i] a space.  Python signals absence with -1;
the only caller compares the result against start with a strict >, so
`none` plays the role of -1 below. -/
def rfindSpace (text : List Char) (start stop : Nat) : Option Nat :=
  ((List.range (min stop text.length)).filter
    (fun i => decide (start ≤ i) && (text.getD i 'x' == ' '))).getLast?

/-- Right edge of one chunk window, ingestion.py lines 58 to 63: the raw
edge start + chunk_size, retracted to the last space strictly after start
when the edge lands mid-word inside the text. -/
def windowEnd (text : List Char) (chunk_size start : Nat) : Nat :=
  let e := start + chunk_size
  if e < text.length ∧ ¬ (text.getD e ' ' == ' ') then
    match rfindSpace text start e with
    | some i => if start < i then i else e
    | none => e
  else e

/-- The while-loop of chunk_text, ingestion.py lines 57 to 70.  The Python
loop is modelled with explicit fuel: when chunk_overlap < chunk_size the
loop terminates and the value is independent of any sufficiently large
fuel (theorem chunking_terminates_fixed_step below); running out of fuel
models the diverging configurations (chunk_overlap ≥ chunk_size), which
never return in Python. -/
def chunkLoop (chunk_size chunk_overlap : Nat) (text : List Char) :
    Nat → Nat → List String
  | 0, _ => []
  | fuel + 1, start =>
    if start < text.length then
      let stripped := pyStrip (pySlice text start (windowEnd text chunk_size start))
      let rest := chunkLoop chunk_size chunk_overlap text fuel
        (start + (chunk_size - chunk_overlap))
      if MIN_CHUNK_SIZE ≤ stripped.length then String.mk stripped :: rest else rest
    else []

/-- chunk_text of src/retrieval/ingestion.py.  The fuel text.length + 1
covers every iteration the Python loop performs when
chunk_overlap < chunk_size, because the window start strictly increases
each round. -/
def chunk_text (text : String) (chunk_size chunk_overlap : Nat) : List String :=
  chunkLoop chunk_size chunk_overlap text.data (text.data.length + 1) 0

/-! ### Chunker lemmas -/

lemma dropWhile_dropWhile (p : Char → Bool) (l : List Char) :
    (l.dropWhile p).dropWhile p = l.dropWhile p := by
  induction l with
  | nil => rfl
  | cons a l ih =>
    by_cases h : p a
    · simp [List.dropWhile_cons, h, ih]
    · simp [List.dropWhile_cons, h]

lemma dropWhile_eq_self_of_head (p : Char → Bool) (l : List Char)
    (h : ∀ c, l.head? = some c → ¬ p c) : l.dropWhile p = l := by
  cases l with
  | nil => rfl
  | cons a l => simp [List.dropWhile_cons, h a rfl]

lemma head_not_space_of_dropWhile (p : Char → Bool) (l : List Char) (c : Char)
    (h : (l.dropWhile p).head? = some c) : ¬ p c := by
  induction l with
  | nil => simp at h
  | cons a l ih =>
    by_cases ha : p a
    · rw [List.dropWhile_cons] at h
      simp [ha] at h
      exact ih h
    · rw [List.dropWhile_cons] at h
      simp [ha] at h
      rw [← h]
      exact ha

/-- pyStrip is a prefix of the left-stripped list, and its head (when it
exists) is the head of the left-stripped list. -/
lemma pyStrip_eq_reverse_dropWhile (s : List Char) :
    pyStrip s = ((s.dropWhile pyIsSpace).reverse.dropWhile pyIsSpace).reverse := rfl

lemma pyStrip_head_not_space (s : List Char) (c : Char)
    (h : (pyStrip s).head? = some c) : ¬ pyIsSpace c := by
  have hpre : pyStrip s <+: s.dropWhile pyIsSpace := by
    rw [pyStrip_eq_reverse_dropWhile]
    rw [← List.reverse_suffix]
    simpa using List.dropWhile_suffix pyIsSpace
  have hh : (s.dropWhile pyIsSpace).head? = some c := by
    obtain ⟨t, ht⟩ := hpre
    rw [← ht]
    cases hps : pyStrip s with
    | nil => rw [hps] at h; simp at h
    | cons a l =>
      rw [hps] at h
      simp at h
      simp [h]
  exact head_not_space_of_dropWhile pyIsSpace s c hh

lemma pyStrip_last_not_space (s : List Char) (c : Char)
    (h : (pyStrip s).reverse.head? = some c) : ¬ pyIsSpace c := by
  rw [pyStrip_eq_reverse_dropWhile, List.reverse_reverse] at h
  exact head_not_space_of_dropWhile pyIsSpace _ c h

/-- Stripping is idempotent: a stripped chunk equals its own strip. -/
lemma pyStrip_idem (s : List Char) : pyStrip (pyStrip s) = pyStrip s := by
  have h1 : (pyStrip s).dropWhile pyIsSpace = pyStrip s :=
    dropWhile_eq_self_of_head _ _ (fun c hc => pyStrip_head_not_space s c hc)
  have h2 : (pyStrip s).reverse.dropWhile pyIsSpace = (pyStrip s).reverse :=
    dropWhile_eq_self_of_head _ _ (fun c hc => pyStrip_last_not_space s c hc)
  show ((((pyStrip s).dropWhile pyIsSpace).reverse).dropWhile pyIsSpace).reverse = pyStrip s
  rw [h1, h2, List.reverse_reverse]

lemma length_dropWhile_le (p : Char → Bool) (l : List Char) :
    (l.dropWhile p).length ≤ l.length :=
  (List.dropWhile_suffix p).sublist.length_le

lemma pyStrip_length_le (s : List Char) : (pyStrip s).length ≤ s.length := by
  unfold pyStrip
  calc ((s.dropWhile pyIsSpace).reverse.dropWhile pyIsSpace).reverse.length
      = ((s.dropWhile pyIsSpace).reverse.dropWhile pyIsSpace).length := by
        rw [List.length_reverse]
    _ ≤ (s.dropWhile pyIsSpace).reverse.length := length_dropWhile_le _ _
    _ = (s.dropWhile pyIsSpace).length := by rw [List.length_reverse]
    _ ≤ s.length := length_dropWhile_le _ _

lemma pySlice_length_le (text : List Char) (start stop : Nat) :
    (pySlice text start stop).length ≤ text.length - start := by
  unfold pySlice
  calc ((text.drop start).take (stop - start)).length
      ≤ (text.drop start).length := by
        rw [List.length_take]; exact min_le_right _ _
    _ = text.length - start := List.length_drop _ _

lemma chunkLoop_mem (chunk_size chunk_overlap : Nat) (textL : List Char) :
    ∀ fuel start c, c ∈ chunkLoop chunk_size chunk_overlap textL fuel start →
      MIN_CHUNK_SIZE ≤ c.length ∧ pyStripStr c = c := by
  intro fuel
  induction fuel with
  | zero => intro start c hc; simp [chunkLoop] at hc
  | succ fuel ih =>
    intro start c hc
    simp only [chunkLoop] at hc
    by_cases hs : start < textL.length
    · rw [if_pos hs] at hc
      by_cases hm :
          MIN_CHUNK_SIZE ≤ (pyStrip (pySlice textL start (windowEnd textL chunk_size start))).length
      · rw [if_pos hm] at hc
        rcases List.mem_cons.mp hc with hc | hc
        · subst hc
          refine ⟨hm, ?_⟩
          show String.mk (pyStrip (String.mk _).data) = _
          rw [show (String.mk (pyStrip (pySlice textL start (windowEnd textL chunk_size start)))).data
              = pyStrip (pySlice textL start (windowEnd textL chunk_size start)) from rfl]
          rw [pyStrip_idem]
        · exact ih _ c hc
      · rw [if_neg hm] at hc
        exact ih _ c hc
    · rw [if_neg hs] at hc
      simp at hc

lemma chunkLoop_nil_of_short (chunk_size chunk_overlap : Nat) (textL : List Char)
    (hshort : textL.length < MIN_CHUNK_SIZE) :
    ∀ fuel start, chunkLoop chunk_size chunk_overlap textL fuel start = [] := by
  intro fuel
  induction fuel with
  | zero => intro start; rfl
  | succ fuel ih =>
    intro start
    simp only [chunkLoop]
    by_cases hs : start < textL.length
    · rw [if_pos hs]
      have hlen : (pyStrip (pySlice textL start (windowEnd textL chunk_size start))).length
          < MIN_CHUNK_SIZE := by
        have h1 := pyStrip_length_le (pySlice textL start (windowEnd textL chunk_size start))
        have h2 := pySlice_length_le textL start (windowEnd textL chunk_size start)
        omega
      rw [if_neg (by omega), ih]
    · rw [if_neg hs]

/-- C8: minimum-size floor.  Every chunk returned by chunk_text has length
at least MIN_CHUNK_SIZE and equals its own strip; a page text shorter than
MIN_CHUNK_SIZE yields zero chunks. -/
theorem chunk_min_size_floor (text : String) (chunk_size chunk_overlap : Nat) :
    (∀ c ∈ chunk_text text chunk_size chunk_overlap,
        MIN_CHUNK_SIZE ≤ c.length ∧ pyStripStr c = c)
    ∧ (text.length < MIN_CHUNK_SIZE → chunk_text text chunk_size chunk_overlap = []) := by
  constructor
  · intro c hc
    have h := chunkLoop_mem chunk_size chunk_overlap text.data _ _ c hc
    refine ⟨?_, h.2⟩
    exact h.1
  · intro hshort
    exact chunkLoop_nil_of_short chunk_size chunk_overlap text.data hshort _ _

set_option maxRecDepth 20000 in
/-- Witness for chunk_min_size_floor: a 150-character page yields a chunk
that keeps the floor, and a 12-character page yields zero chunks. -/
theorem chunk_min_size_floor_witness :
    (MIN_CHUNK_SIZE ≤ (String.mk (List.replicate 150 'a')).length
      ∧ pyStripStr (String.mk (List.replicate 150 'a')) = String.mk (List.replicate 150 'a'))
    ∧ chunk_text (String.mk (List.replicate 12 'b')) 1000 200 = [] := by
  constructor
  · exact (chunk_min_size_floor (String.mk (List.replicate 150 'a')) 1000 200).1
      (String.mk (List.replicate 150 'a')) (by decide)
  · exact (chunk_min_size_floor (String.mk (List.replicate 12 'b')) 1000 200).2 (by decide)

lemma chunkLoop_congr (chunk_size chunk_overlap : Nat) (h : chunk_overlap < chunk_size)
    (textL : List Char) :
    ∀ n start fuel1 fuel2, textL.length - start ≤ n →
      textL.length - start < fuel1 → textL.length - start < fuel2 →
      chunkLoop chunk_size chunk_overlap textL fuel1 start
        = chunkLoop chunk_size chunk_overlap textL fuel2 start := by
  intro n
  induction n with
  | zero =>
    intro start f1 f2 hle h1 h2
    obtain ⟨g1, rfl⟩ : ∃ g, f1 = g + 1 := ⟨f1 - 1, by omega⟩
    obtain ⟨g2, rfl⟩ : ∃ g, f2 = g + 1 := ⟨f2 - 1, by omega⟩
    have hs : ¬ start < textL.length := by omega
    simp only [chunkLoop]
    rw [if_neg hs, if_neg hs]
  | succ n ih =>
    intro start f1 f2 hle h1 h2
    obtain ⟨g1, rfl⟩ : ∃ g, f1 = g + 1 := ⟨f1 - 1, by omega⟩
    obtain ⟨g2, rfl⟩ : ∃ g, f2 = g + 1 := ⟨f2 - 1, by omega⟩
    by_cases hs : start < textL.length
    · have hrec := ih (start + (chunk_size - chunk_overlap)) g1 g2
        (by omega) (by omega) (by omega)
      simp only [chunkLoop]
      rw [if_pos hs, if_pos hs, hrec]
    · simp only [chunkLoop]
      rw [if_neg hs, if_neg hs]

/-- C9: with 0 ≤ chunk_overlap < chunk_size the chunking loop advances by
the fixed positive step chunk_size - chunk_overlap each iteration and
terminates: its value is independent of the fuel once the fuel exceeds the
text length, hence equals the finite list chunk_text returns. -/
theorem chunking_terminates_fixed_step (text : String) (chunk_size chunk_overlap : Nat)
    (h : chunk_overlap < chunk_size) :
    0 < chunk_size - chunk_overlap
    ∧ ∀ fuel, text.data.length < fuel →
        chunkLoop chunk_size chunk_overlap text.data fuel 0
          = chunk_text text chunk_size chunk_overlap := by
  constructor
  · omega
  · intro fuel hf
    unfold chunk_text
    exact chunkLoop_congr chunk_size chunk_overlap h text.data
      text.data.length 0 fuel (text.data.length + 1) (by omega) (by omega) (by omega)

set_option maxRecDepth 20000 in
/-- Witness for chunking_terminates_fixed_step at a concrete text, window
5, overlap 2, and a fuel far above the text length. -/
theorem chunking_terminates_fixed_step_witness :
    0 < 5 - 2
    ∧ chunkLoop 5 2 ("hello world").data 100 0 = chunk_text "hello world" 5 2 := by
  refine ⟨(chunking_terminates_fixed_step "hello world" 5 2 (by decide)).1, ?_⟩
  exact (chunking_terminates_fixed_step "hello world" 5 2 (by decide)).2 100 (by decide)

/-! ## Retriever, from src/retrieval/retrieval.py

The ChromaDB collection, the embedding gateway and the index query are
external capabilities; they are modelled by a SearchEnv that fixes, per
query string and result cap, either one of the three failure modes the
code catches or the raw query results.  Similarity scores and cosine
distances are modelled as exact rationals, which is faithful for the
comparisons, filtering and sorting the code performs on them. -/

/-- A Chroma metadata dict as read by search_documents: the code accesses
it only through metadata.get with the four keys below, each with a
default for a missing key. -/
structure Metadata where
  document_name : Option String
  page_number : Option Nat
  chunk_index : Option Nat
  citation : Option String
deriving DecidableEq

/-- RetrievedChunk of retrieval.py. -/
structure RetrievedChunk where
  text : String
  document_name : String
  page_number : Nat
  chunk_index : Nat
  citation : String
  similarity_score : ℚ
  metadata : Metadata
deriving DecidableEq

/-- The dict collection.query returns, restricted to the three include
keys the code reads.  Chroma returns one inner list per query embedding;
the code issues one embedding and reads index 0 of each outer list.  A
missing or None outer value and an empty outer list are observed
identically by the code (both are falsy, both make `xs[0] if xs else []`
yield []), so both are represented by []. -/
structure QueryResults where
  documents : List (List String)
  metadatas : List (List Metadata)
  distances : List (List ℚ)
deriving DecidableEq

/-- Outcome of one search_documents call on its external collaborators:
the collection is missing (get_collection returned None), the embedding
call raised, the index query raised, or the index returned results.  The
three failure branches are caught in retrieval.py lines 60 to 79 and
turned into an empty result, never re-raised. -/
inductive SearchOutcome where
  | noCollection
  | embedFail
  | queryFail
  | ok (results : QueryResults)
deriving DecidableEq

/-- External behaviour of the vector index and embedding gateway for a
fixed collection: what one search_documents call observes, as a function
of the query text and the result cap n_results. -/
structure SearchEnv where
  outcome : String → Nat → SearchOutcome

/-- Python zip over three lists (truncates to the shortest). -/
def zip3 {α β γ : Type} : List α → List β → List γ → List (α × β × γ)
  | a :: as, b :: bs, c :: cs => (a, b, c) :: zip3 as bs cs
  | _, _, _ => []

/-- Field defaults of retrieval.py lines 98 to 106. -/
def mkChunk (doc : String) (md : Metadata) (sim : ℚ) : RetrievedChunk :=
  { text := doc
    document_name := md.document_name.getD "Unknown"
    page_number := md.page_number.getD 0
    chunk_index := md.chunk_index.getD 0
    citation := md.citation.getD "No citation available"
    similarity_score := sim
    metadata := md }

/-- The result loop of search_documents, retrieval.py lines 90 to 107:
similarity is 1 minus the cosine distance, hits below min_score are
dropped, the rest become RetrievedChunks in index order. -/
def rowsToChunks (min_score : ℚ) : List (String × Metadata × ℚ) → List RetrievedChunk
  | [] => []
  | (doc, md, dist) :: rest =>
    if 1 - dist < min_score then rowsToChunks min_score rest
    else mkChunk doc md (1 - dist) :: rowsToChunks min_score rest

/-- Python xs[0] if xs else [] for the metadata and distance outer lists. -/
def headOrNil {α : Type} : List (List α) → List α
  | [] => []
  | l :: _ => l

/-- Guard and loop of search_documents, lines 81 to 109: return [] when
the documents key is falsy or its first inner list is empty, else build
chunks from the zipped rows. -/
def resultsToChunks (min_score : ℚ) : QueryResults → List RetrievedChunk
  | ⟨[], _, _⟩ => []
  | ⟨docs0 :: _, metadatas, distances⟩ =>
    if docs0 = [] then []
    else rowsToChunks min_score (zip3 docs0 (headOrNil metadatas) (headOrNil distances))

/-- Dispatch on the outcome of the external calls, search_documents lines
60 to 79: each caught failure returns []. -/
def outcomeToChunks (min_score : ℚ) : SearchOutcome → List RetrievedChunk
  | .noCollection => []
  | .embedFail => []
  | .queryFail => []
  | .ok results => resultsToChunks min_score results

/-- search_documents of retrieval.py. -/
def search_documents (env : SearchEnv) (query : String) (top_k : Nat)
    (min_score : ℚ) : List RetrievedChunk :=
  outcomeToChunks min_score (env.outcome query top_k)

/-- The dicts retrieve_with_context and multi_query_retrieval return.
chunks_by_document is `none` when the dict carries no such key (the
not-found dicts and every multi_query_retrieval dict). -/
structure RetrievalResult where
  found : Bool
  message : String
  chunks : List RetrievedChunk
  context : String
  citations : List String
  chunks_by_document : Option (List (String × List RetrievedChunk))
deriving DecidableEq

/-- Python list(dict.fromkeys(xs)): keep the first occurrence of each
element, in first-seen order.  The seen accumulator plays the role of the
dict keys. -/
def dictFromKeysAux (seen : List String) : List String → List String
  | [] => []
  | x :: xs =>
    if x ∈ seen then dictFromKeysAux seen xs
    else x :: dictFromKeysAux (x :: seen) xs

def dictFromKeys (l : List String) : List String := dictFromKeysAux [] l

/-- The chunks_by_doc insertion-ordered dict of retrieval.py lines
129 to 134, as an association list in key-insertion order. -/
def groupByDoc (chunks : List RetrievedChunk) : List (String × List RetrievedChunk) :=
  chunks.foldl
    (fun acc c =>
      if acc.any (fun p => p.1 = c.document_name)
      then acc.map (fun p => if p.1 = c.document_name then (p.1, p.2 ++ [c]) else p)
      else acc ++ [(c.document_name, [c])])
    []

/-- The context_parts loop of retrieval.py lines 139 to 143 (and 186 to
190): one "[Source i] citation\ntext\n" block per chunk, numbered from 1. -/
def contextParts : Nat → List RetrievedChunk → List String
  | _, [] => []
  | i, c :: rest =>
    ("[Source " ++ toString i ++ "] " ++ c.citation ++ "\n" ++ c.text ++ "\n")
      :: contextParts (i + 1) rest

/-- retrieve_with_context of retrieval.py. -/
def retrieve_with_context (env : SearchEnv) (query : String) (top_k : Nat)
    (min_score : ℚ) : RetrievalResult :=
  let chunks := search_documents env query top_k min_score
  if chunks = [] then
    { found := false
      message := "Not found in sources. The available documents do not contain information to answer this query."
      chunks := []
      context := ""
      citations := []
      chunks_by_document := none }
  else
    let chunks_by_doc := groupByDoc chunks
    { found := true
      message := "Found " ++ toString chunks.length ++ " relevant chunks from "
        ++ toString chunks_by_doc.length ++ " documents."
      chunks := chunks
      context := String.intercalate "\n---\n" (contextParts 1 chunks)
      citations := dictFromKeys (chunks.map (fun c => c.citation))
      chunks_by_document := some chunks_by_doc }

/-- The dedup key of retrieval.py line 170:
f-string "{document_name}_{page_number}_{chunk_index}". -/
def chunkId (c : RetrievedChunk) : String :=
  c.document_name ++ "_" ++ toString c.page_number ++ "_" ++ toString c.chunk_index

/-- Inner loop of multi_query_retrieval, lines 169 to 173: append each hit
whose identifier was not seen yet, first occurrence wins. -/
def addChunks (acc : List RetrievedChunk × List String) :
    List RetrievedChunk → List RetrievedChunk × List String
  | [] => acc
  | c :: cs =>
    if chunkId c ∈ acc.2 then addChunks acc cs
    else addChunks (acc.1 ++ [c], chunkId c :: acc.2) cs

/-- Outer loop of multi_query_retrieval, lines 166 to 173. -/
def multiGo (env : SearchEnv) (top_k : Nat) (min_score : ℚ)
    (acc : List RetrievedChunk × List String) :
    List String → List RetrievedChunk × List String
  | [] => acc
  | q :: qs =>
    multiGo env top_k min_score (addChunks acc (search_documents env q top_k min_score)) qs

/-- The dedup relation on whole chunks, ordered by descending similarity,
used to model all_chunks.sort(key=lambda x: x.similarity_score,
reverse=True).  Python list.sort is a stable sort; insertionSort with
this total preorder is a stable sort as well, so the two agree. -/
def scoreGe (a b : RetrievedChunk) : Prop := b.similarity_score ≤ a.similarity_score

instance : DecidableRel scoreGe := fun a b =>
  inferInstanceAs (Decidable (b.similarity_score ≤ a.similarity_score))

instance : IsTotal RetrievedChunk scoreGe :=
  ⟨fun a b => (le_total b.similarity_score a.similarity_score)⟩

instance : IsTrans RetrievedChunk scoreGe :=
  ⟨fun _ _ _ h1 h2 => le_trans h2 h1⟩

/-- multi_query_retrieval of retrieval.py. -/
def multi_query_retrieval (env : SearchEnv) (queries : List String)
    (top_k_per_query : Nat) (min_score : ℚ) : RetrievalResult :=
  let all_chunks := List.insertionSort scoreGe
    (multiGo env top_k_per_query min_score ([], []) queries).1
  if all_chunks = [] then
    { found := false
      message := "Not found in sources."
      chunks := []
      context := ""
      citations := []
      chunks_by_document := none }
  else
    { found := true
      message := "Found " ++ toString all_chunks.length ++ " unique chunks across "
        ++ toString queries.length ++ " queries."
      chunks := all_chunks
      context := String.intercalate "\n---\n" (contextParts 1 all_chunks)
      citations := dictFromKeys (all_chunks.map (fun c => c.citation))
      chunks_by_document := none }

/-! ### Retriever lemmas -/

lemma rowsToChunks_floor (min_score : ℚ) :
    ∀ rows c, c ∈ rowsToChunks min_score rows → min_score ≤ c.similarity_score := by
  intro rows
  induction rows with
  | nil => intro c hc; simp [rowsToChunks] at hc
  | cons row rest ih =>
    obtain ⟨doc, md, dist⟩ := row
    intro c hc
    simp only [rowsToChunks] at hc
    by_cases hlt : 1 - dist < min_score
    · rw [if_pos hlt] at hc
      exact ih c hc
    · rw [if_neg hlt] at hc
      rcases List.mem_cons.mp hc with rfl | hc
      · simpa [mkChunk] using le_of_not_lt hlt
      · exact ih c hc

lemma resultsToChunks_floor (min_score : ℚ) (results : QueryResults) :
    ∀ c ∈ resultsToChunks min_score results, min_score ≤ c.similarity_score := by
  obtain ⟨docs, metadatas, distances⟩ := results
  intro c hc
  cases docs with
  | nil => simp [resultsToChunks] at hc
  | cons docs0 rest =>
    simp only [resultsToChunks] at hc
    by_cases hd : docs0 = []
    · rw [if_pos hd] at hc; simp at hc
    · rw [if_neg hd] at hc
      exact rowsToChunks_floor min_score _ c hc

lemma search_documents_floor (env : SearchEnv) (q : String) (top_k : Nat) (min_score : ℚ) :
    ∀ c ∈ search_documents env q top_k min_score, min_score ≤ c.similarity_score := by
  intro c hc
  unfold search_documents at hc
  cases houtcome : env.outcome q top_k with
  | noCollection => rw [houtcome] at hc; simp [outcomeToChunks] at hc
  | embedFail => rw [houtcome] at hc; simp [outcomeToChunks] at hc
  | queryFail => rw [houtcome] at hc; simp [outcomeToChunks] at hc
  | ok results =>
    rw [houtcome] at hc
    simp only [outcomeToChunks] at hc
    exact resultsToChunks_floor min_score results c hc

lemma retrieve_with_context_chunks (env : SearchEnv) (q : String) (top_k : Nat)
    (min_score : ℚ) :
    (retrieve_with_context env q top_k min_score).chunks = [] ∨
    (retrieve_with_context env q top_k min_score).chunks
      = search_documents env q top_k min_score := by
  by_cases h : search_documents env q top_k min_score = []
  · left; simp [retrieve_with_context, h]
  · right; simp [retrieve_with_context, h]

lemma addChunks_subset (cs : List RetrievedChunk) :
    ∀ acc c, c ∈ (addChunks acc cs).1 → c ∈ acc.1 ∨ c ∈ cs := by
  induction cs with
  | nil => intro acc c hc; exact Or.inl hc
  | cons x xs ih =>
    intro acc c hc
    simp only [addChunks] at hc
    by_cases hx : chunkId x ∈ acc.2
    · rw [if_pos hx] at hc
      rcases ih acc c hc with h | h
      · exact Or.inl h
      · exact Or.inr (List.mem_cons_of_mem _ h)
    · rw [if_neg hx] at hc
      rcases ih _ c hc with h | h
      · rcases List.mem_append.mp h with h | h
        · exact Or.inl h
        · simp at h
          subst h
          exact Or.inr (List.mem_cons_self _ _)
      · exact Or.inr (List.mem_cons_of_mem _ h)

lemma multiGo_subset (env : SearchEnv) (top_k : Nat) (min_score : ℚ)
    (queries : List String) :
    ∀ acc c, c ∈ (multiGo env top_k min_score acc queries).1 →
      c ∈ acc.1 ∨ ∃ q ∈ queries, c ∈ search_documents env q top_k min_score := by
  induction queries with
  | nil => intro acc c hc; exact Or.inl hc
  | cons q qs ih =>
    intro acc c hc
    simp only [multiGo] at hc
    rcases ih _ c hc with h | h
    · rcases addChunks_subset _ _ c h with h | h
      · exact Or.inl h
      · exact Or.inr ⟨q, List.mem_cons_self _ _, h⟩
    · obtain ⟨q2, hq2, hcq⟩ := h
      exact Or.inr ⟨q2, List.mem_cons_of_mem _ hq2, hcq⟩

lemma addChunks_nodup (cs : List RetrievedChunk) :
    ∀ acc, (∀ c ∈ acc.1, chunkId c ∈ acc.2) → (acc.1.map chunkId).Nodup →
      (∀ c ∈ (addChunks acc cs).1, chunkId c ∈ (addChunks acc cs).2)
        ∧ ((addChunks acc cs).1.map chunkId).Nodup := by
  induction cs with
  | nil => intro acc h1 h2; exact ⟨h1, h2⟩
  | cons x xs ih =>
    intro acc h1 h2
    simp only [addChunks]
    by_cases hx : chunkId x ∈ acc.2
    · rw [if_pos hx]
      exact ih acc h1 h2
    · rw [if_neg hx]
      refine ih _ ?_ ?_
      · intro c hc
        rcases List.mem_append.mp hc with h | h
        · exact List.mem_cons_of_mem _ (h1 c h)
        · simp at h
          subst h
          exact List.mem_cons_self _ _
      · rw [List.map_append]
        have hperm : (acc.1.map chunkId ++ [chunkId x]).Perm (chunkId x :: acc.1.map chunkId) :=
          List.perm_append_singleton _ _
        refine hperm.symm.nodup ?_
        refine List.nodup_cons.mpr ⟨?_, h2⟩
        intro hmem
        rcases List.mem_map.mp hmem with ⟨c, hc, hcid⟩
        exact hx (hcid ▸ h1 c hc)

lemma multiGo_nodup (env : SearchEnv) (top_k : Nat) (min_score : ℚ)
    (queries : List String) :
    ∀ acc, (∀ c ∈ acc.1, chunkId c ∈ acc.2) → (acc.1.map chunkId).Nodup →
      ((multiGo env top_k min_score acc queries).1.map chunkId).Nodup := by
  induction queries with
  | nil => intro acc _ h2; exact h2
  | cons q qs ih =>
    intro acc h1 h2
    simp only [multiGo]
    obtain ⟨g1, g2⟩ := addChunks_nodup _ acc h1 h2
    exact ih _ g1 g2

lemma multi_query_retrieval_chunks (env : SearchEnv) (queries : List String)
    (top_k : Nat) (min_score : ℚ) :
    (multi_query_retrieval env queries top_k min_score).chunks
      = List.insertionSort scoreGe (multiGo env top_k min_score ([], []) queries).1 := by
  unfold multi_query_retrieval
  by_cases h : List.insertionSort scoreGe (multiGo env top_k min_score ([], []) queries).1 = []
  · simp [h]
  · simp [h]

/-- C2: the chunks of every multi_query_retrieval result carry pairwise
distinct identifiers (document_name, page_number, chunk_index) and are
sorted by similarity_score non-increasing. -/
theorem multi_query_dedup_sorted (env : SearchEnv) (queries : List String)
    (top_k_per_query : Nat) (min_score : ℚ) :
    List.Pairwise (fun a b =>
        (a.document_name, a.page_number, a.chunk_index)
          ≠ (b.document_name, b.page_number, b.chunk_index))
      (multi_query_retrieval env queries top_k_per_query min_score).chunks
    ∧ List.Sorted scoreGe (multi_query_retrieval env queries top_k_per_query min_score).chunks := by
  rw [multi_query_retrieval_chunks]
  constructor
  · have hnodup0 : ((multiGo env top_k_per_query min_score ([], []) queries).1.map chunkId).Nodup :=
      multiGo_nodup env top_k_per_query min_score queries ([], [])
        (by intro c hc; simp at hc) (by simp)
    have hperm := List.perm_insertionSort scoreGe
      (multiGo env top_k_per_query min_score ([], []) queries).1
    have hnodup : ((List.insertionSort scoreGe
        (multiGo env top_k_per_query min_score ([], []) queries).1).map chunkId).Nodup :=
      ((hperm.map chunkId).symm.nodup hnodup0)
    have hpw := (List.pairwise_map.mp hnodup)
    refine hpw.imp ?_
    intro a b hne heq
    apply hne
    unfold chunkId
    rw [show a.document_name = b.document_name from congrArg Prod.fst heq,
      show a.page_number = b.page_number from congrArg (fun p => p.2.1) heq,
      show a.chunk_index = b.chunk_index from congrArg (fun p => p.2.2) heq]
  · exact List.sorted_insertionSort scoreGe _

/-- C4: threshold gate.  Every RetrievedChunk produced by search_documents
(with similarity computed as 1 minus the cosine distance, see
rowsToChunks) scores at least min_score, and so does every chunk of a
retrieve_with_context or multi_query_retrieval result built with the same
min_score. -/
theorem similarity_threshold_gate (env : SearchEnv) (query : String) (top_k : Nat)
    (min_score : ℚ) :
    (∀ c ∈ search_documents env query top_k min_score, min_score ≤ c.similarity_score)
    ∧ (∀ c ∈ (retrieve_with_context env query top_k min_score).chunks,
        min_score ≤ c.similarity_score)
    ∧ (∀ queries : List String,
        ∀ c ∈ (multi_query_retrieval env queries top_k min_score).chunks,
          min_score ≤ c.similarity_score) := by
  refine ⟨search_documents_floor env query top_k min_score, ?_, ?_⟩
  · intro c hc
    rcases retrieve_with_context_chunks env query top_k min_score with h | h
    · rw [h] at hc; simp at hc
    · rw [h] at hc
      exact search_documents_floor env query top_k min_score c hc
  · intro queries c hc
    rw [multi_query_retrieval_chunks] at hc
    have hmem : c ∈ (multiGo env top_k min_score ([], []) queries).1 :=
      (List.perm_insertionSort scoreGe _).mem_iff.mp hc
    rcases multiGo_subset env top_k min_score queries ([], []) c hmem with h | ⟨q, _, hcq⟩
    · simp at h
    · exact search_documents_floor env q top_k min_score c hcq

/-- C5: absence of evidence is returned as data.  A missing collection or
a failed embedding or index call yields an empty list (the model is a
total function: the code catches these exceptions and returns, it never
re-raises); retrieve_with_context turns an empty search into
found = false with the fixed message and empty chunks and citations, and
any non-empty search into found = true. -/
theorem no_evidence_is_data (env : SearchEnv) (query : String) (top_k : Nat)
    (min_score : ℚ) :
    ((env.outcome query top_k = .noCollection ∨ env.outcome query top_k = .embedFail
        ∨ env.outcome query top_k = .queryFail)
      → search_documents env query top_k min_score = [])
    ∧ (search_documents env query top_k min_score = [] →
        retrieve_with_context env query top_k min_score =
          { found := false
            message := "Not found in sources. The available documents do not contain information to answer this query."
            chunks := []
            context := ""
            citations := []
            chunks_by_document := none })
    ∧ (search_documents env query top_k min_score ≠ [] →
        (retrieve_with_context env query top_k min_score).found = true) := by
  refine ⟨?_, ?_, ?_⟩
  · intro h
    unfold search_documents
    rcases h with h | h | h <;> rw [h] <;> rfl
  · intro h
    simp [retrieve_with_context, h]
  · intro h
    simp [retrieve_with_context, h]

/-! ### Concrete environments for witnesses and counterexamples -/

/-- A metadata record as the indexer stores it. -/
def mdW : Metadata :=
  { document_name := some "ops.pdf"
    page_number := some 1
    chunk_index := some 0
    citation := some "ops.pdf, Page 1, Chunk 0" }

/-- An index holding one hit at cosine distance 0 for every query. -/
def envW : SearchEnv := ⟨fun _ _ => .ok ⟨[["evidence text"]], [[mdW]], [[0]]⟩⟩

/-- An index whose collection is missing. -/
def envFail : SearchEnv := ⟨fun _ _ => .noCollection⟩

lemma envW_search (q : String) (k : Nat) :
    search_documents envW q k 0 = [mkChunk "evidence text" mdW 1] := by
  show outcomeToChunks 0 (SearchOutcome.ok ⟨[["evidence text"]], [[mdW]], [[0]]⟩) = _
  simp only [outcomeToChunks, resultsToChunks, headOrNil, zip3, rowsToChunks]
  rw [show (1:ℚ) - 0 = 1 from by norm_num]
  rw [if_neg (by decide), if_neg (by norm_num : ¬ ((1:ℚ) < 0))]

/-- Witness for similarity_threshold_gate at a concrete index state. -/
theorem similarity_threshold_gate_witness :
    (0:ℚ) ≤ (mkChunk "evidence text" mdW 1).similarity_score :=
  (similarity_threshold_gate envW "q" 5 0).1 (mkChunk "evidence text" mdW 1)
    (by rw [envW_search]; exact List.mem_singleton_self _)

/-- Witness for no_evidence_is_data: a missing collection yields an empty
search and a found = false result, a non-empty search yields found = true. -/
theorem no_evidence_is_data_witness :
    search_documents envFail "q" 5 (1/2) = []
    ∧ (retrieve_with_context envFail "q" 5 (1/2)).found = false
    ∧ (retrieve_with_context envW "q" 5 0).found = true := by
  have h1 := (no_evidence_is_data envFail "q" 5 (1/2)).1 (Or.inl rfl)
  refine ⟨h1, ?_, ?_⟩
  · rw [(no_evidence_is_data envFail "q" 5 (1/2)).2.1 h1]
  · refine (no_evidence_is_data envW "q" 5 0).2.2 ?_
    rw [envW_search]
    simp

/-! ### C3: dedup keeps the first occurrence, not the higher score -/

/-- Metadata shared by the two hits of the C3 scenario: same document,
page and in-page index, hence the same dedup identifier. -/
def mdD : Metadata :=
  { document_name := some "doc.pdf"
    page_number := some 2
    chunk_index := some 5
    citation := some "doc.pdf, Page 2, Chunk 5" }

/-- The hit query q1 returns: similarity 0.7 (cosine distance 0.3). -/
def chunk07 : RetrievedChunk := mkChunk "text one" mdD (7/10)

/-- The hit query q2 returns: similarity 0.9 (cosine distance 0.1). -/
def chunk09 : RetrievedChunk := mkChunk "text two" mdD (9/10)

/-- An index where q1 finds the chunk at distance 0.3 and q2 finds the
same chunk (same identifier) at distance 0.1. -/
def env0709 : SearchEnv :=
  ⟨fun q _ =>
    if q = "q1" then .ok ⟨[["text one"]], [[mdD]], [[3/10]]⟩
    else if q = "q2" then .ok ⟨[["text two"]], [[mdD]], [[1/10]]⟩
    else .noCollection⟩

lemma env0709_q1 (k : Nat) :
    search_documents env0709 "q1" k (3/10) = [chunk07] := by
  show outcomeToChunks (3/10)
    (SearchOutcome.ok ⟨[["text one"]], [[mdD]], [[3/10]]⟩) = _
  simp only [outcomeToChunks, resultsToChunks, headOrNil, zip3, rowsToChunks]
  rw [show (1:ℚ) - 3/10 = 7/10 from by norm_num]
  rw [if_neg (by decide), if_neg (by norm_num : ¬ ((7:ℚ)/10 < 3/10))]
  rfl

lemma env0709_q2 (k : Nat) :
    search_documents env0709 "q2" k (3/10) = [chunk09] := by
  show outcomeToChunks (3/10)
    (SearchOutcome.ok ⟨[["text two"]], [[mdD]], [[1/10]]⟩) = _
  simp only [outcomeToChunks, resultsToChunks, headOrNil, zip3, rowsToChunks]
  rw [show (1:ℚ) - 1/10 = 9/10 from by norm_num]
  rw [if_neg (by decide), if_neg (by norm_num : ¬ ((9:ℚ)/10 < 3/10))]
  rfl

lemma multi_chunks_0709 :
    (multi_query_retrieval env0709 ["q1", "q2"] 3 (3/10)).chunks = [chunk07] := by
  rw [multi_query_retrieval_chunks]
  have s1 : addChunks (([] : List RetrievedChunk), ([] : List String)) [chunk07]
      = ([chunk07], [chunkId chunk07]) := by
    simp [addChunks]
  have s2 : addChunks ([chunk07], [chunkId chunk07]) [chunk09]
      = ([chunk07], [chunkId chunk07]) := by
    simp only [addChunks]
    rw [if_pos (by decide)]
  have hgo : (multiGo env0709 3 (3/10) ([], []) ["q1", "q2"]).1 = [chunk07] := by
    simp only [multiGo, env0709_q1, env0709_q2, s1, s2]
  rw [hgo]
  rfl

/-- C3 counterexample: with q1 scoring the shared chunk 0.7 and q2
scoring it 0.9, the merge of [q1, q2] keeps exactly one entry, but at
score 0.7 taken from the first query, not 0.9: the identifier, not the
score, decides which duplicate survives. -/
theorem multi_merge_score_counterexample :
    (multi_query_retrieval env0709 ["q1", "q2"] 3 (3/10)).chunks.map
        (fun c => c.similarity_score) = [7/10]
    ∧ (7:ℚ)/10 ≠ 9/10
    ∧ (search_documents env0709 "q1" 3 (3/10)).map (fun c => c.similarity_score) = [7/10]
    ∧ (search_documents env0709 "q2" 3 (3/10)).map (fun c => c.similarity_score) = [9/10]
    ∧ chunkId chunk07 = chunkId chunk09 := by
  refine ⟨?_, by norm_num, ?_, ?_, by decide⟩
  · rw [multi_chunks_0709]; rfl
  · rw [env0709_q1]; rfl
  · rw [env0709_q2]; rfl

/-- C3 amended: when two queries each return one hit with the same chunk
identifier, the merge keeps exactly one entry, namely the hit of the
query that comes first in the input list, with that first hit's score
(first occurrence wins, whichever of the two scores is larger). -/
theorem multi_merge_first_query_wins (env : SearchEnv) (q1 q2 : String)
    (top_k : Nat) (min_score : ℚ) (c1 c2 : RetrievedChunk)
    (h1 : search_documents env q1 top_k min_score = [c1])
    (h2 : search_documents env q2 top_k min_score = [c2])
    (hid : chunkId c1 = chunkId c2) :
    (multi_query_retrieval env [q1, q2] top_k min_score).chunks = [c1] := by
  rw [multi_query_retrieval_chunks]
  have e1 : addChunks (([] : List RetrievedChunk), ([] : List String)) [c1]
      = ([c1], [chunkId c1]) := by
    simp [addChunks]
  have e2 : addChunks ([c1], [chunkId c1]) [c2] = ([c1], [chunkId c1]) := by
    simp only [addChunks]
    rw [if_pos (by rw [← hid]; exact List.mem_singleton_self _)]
  have hgo : (multiGo env top_k min_score ([], []) [q1, q2]).1 = [c1] := by
    simp only [multiGo, h1, h2, e1, e2]
  rw [hgo]
  rfl

/-- Witness for multi_merge_first_query_wins at the concrete index of the
0.9 / 0.7 scenario. -/
theorem multi_merge_first_query_wins_witness :
    (multi_query_retrieval env0709 ["q1", "q2"] 3 (3/10)).chunks = [chunk07] :=
  multi_merge_first_query_wins env0709 "q1" "q2" 3 (3/10) chunk07 chunk09
    (env0709_q1 3) (env0709_q2 3) (by decide)

/-! ## Context Formatter, from src/retrieval/prompting.py -/

/-- Index of the first occurrence of x in l (l.length when absent);
used to state first-seen order. -/
def firstIdx (x : String) : List String → Nat
  | [] => 0
  | a :: l => if a = x then 0 else firstIdx x l + 1

lemma dictFromKeysAux_mem :
    ∀ (l seen : List String) (x : String),
      x ∈ dictFromKeysAux seen l ↔ x ∈ l ∧ x ∉ seen := by
  intro l
  induction l with
  | nil => intro seen x; simp [dictFromKeysAux]
  | cons a l ih =>
    intro seen x
    simp only [dictFromKeysAux]
    by_cases ha : a ∈ seen
    · rw [if_pos ha, ih]
      constructor
      · rintro ⟨hx, hn⟩
        exact ⟨List.mem_cons_of_mem _ hx, hn⟩
      · rintro ⟨hx, hn⟩
        rcases List.mem_cons.mp hx with rfl | hx
        · exact absurd ha hn
        · exact ⟨hx, hn⟩
    · rw [if_neg ha]
      constructor
      · intro hx
        rcases List.mem_cons.mp hx with rfl | hx
        · exact ⟨List.mem_cons_self _ _, ha⟩
        · obtain ⟨h1, h2⟩ := (ih (a :: seen) x).mp hx
          exact ⟨List.mem_cons_of_mem _ h1, fun hs => h2 (List.mem_cons_of_mem _ hs)⟩
      · rintro ⟨hx, hn⟩
        by_cases hxa : x = a
        · subst hxa
          exact List.mem_cons_self _ _
        · rcases List.mem_cons.mp hx with rfl | hx
          · exact absurd rfl hxa
          · refine List.mem_cons_of_mem _ ((ih (a :: seen) x).mpr ⟨hx, ?_⟩)
            intro hs
            rcases List.mem_cons.mp hs with rfl | hs
            · exact hxa rfl
            · exact hn hs

lemma dictFromKeysAux_nodup :
    ∀ (l seen : List String), (dictFromKeysAux seen l).Nodup := by
  intro l
  induction l with
  | nil => intro seen; exact List.nodup_nil
  | cons a l ih =>
    intro seen
    simp only [dictFromKeysAux]
    by_cases ha : a ∈ seen
    · rw [if_pos ha]
      exact ih seen
    · rw [if_neg ha]
      refine List.nodup_cons.mpr ⟨?_, ih (a :: seen)⟩
      intro hmem
      exact ((dictFromKeysAux_mem l (a :: seen) a).mp hmem).2 (List.mem_cons_self _ _)

lemma dictFromKeysAux_pairwise_firstIdx :
    ∀ (l seen : List String),
      List.Pairwise (fun a b => firstIdx a l < firstIdx b l) (dictFromKeysAux seen l) := by
  intro l
  induction l with
  | nil => intro seen; exact List.Pairwise.nil
  | cons a l ih =>
    intro seen
    simp only [dictFromKeysAux]
    by_cases ha : a ∈ seen
    · rw [if_pos ha]
      refine (ih seen).imp_of_mem ?_
      intro x y hx hy hxy
      have hxm := (dictFromKeysAux_mem l seen x).mp hx
      have hym := (dictFromKeysAux_mem l seen y).mp hy
      have hxa : ¬ a = x := fun he => hxm.2 (he ▸ ha)
      have hya : ¬ a = y := fun he => hym.2 (he ▸ ha)
      simpa [firstIdx, hxa, hya] using hxy
    · rw [if_neg ha]
      refine List.Pairwise.cons ?_ ?_
      · intro y hy
        have hym := (dictFromKeysAux_mem l (a :: seen) y).mp hy
        have hya : ¬ a = y := fun he => hym.2 (he ▸ List.mem_cons_self _ _)
        simp [firstIdx, hya]
      · refine (ih (a :: seen)).imp_of_mem ?_
        intro x y hx hy hxy
        have hxm := (dictFromKeysAux_mem l (a :: seen) x).mp hx
        have hym := (dictFromKeysAux_mem l (a :: seen) y).mp hy
        have hxa : ¬ a = x := fun he => hxm.2 (he ▸ List.mem_cons_self _ _)
        have hya : ¬ a = y := fun he => hym.2 (he ▸ List.mem_cons_self _ _)
        simpa [firstIdx, hxa, hya] using hxy

lemma dictFromKeys_nodup (l : List String) : (dictFromKeys l).Nodup :=
  dictFromKeysAux_nodup l []

lemma dictFromKeys_mem (l : List String) (x : String) :
    x ∈ dictFromKeys l ↔ x ∈ l := by
  rw [dictFromKeys, dictFromKeysAux_mem]
  simp

/-- Iteration order over a CPython set of strings is implementation
defined (it depends on the per-process hash seed), so list(set(xs)) in
format_citations is modelled by an environment: any enumeration that
lists each distinct element of the input exactly once. -/
structure SetEnum where
  enum : List String → List String
  nodup : ∀ l, (enum l).Nodup
  mem : ∀ l x, x ∈ enum l ↔ x ∈ l

/-- The numbered lines of format_citations, prompting.py line 38,
numbered from 1. -/
def numberedLines : Nat → List String → List String
  | _, [] => []
  | i, c :: cs => (toString i ++ ". " ++ c) :: numberedLines (i + 1) cs

/-- format_citations of src/retrieval/prompting.py: unique citations of
the chunks via list(set(...)), rendered as a numbered list. -/
def format_citations (se : SetEnum) (chunks : List RetrievedChunk) : String :=
  if chunks = [] then "No sources"
  else String.intercalate "\n"
    (numberedLines 1 (se.enum (chunks.map (fun c => c.citation))))

/-- The citations artifact as the spec words it: the numbered list
deduplicated in first-seen order.  Kept separate from format_citations,
which follows the source, to compare the two. -/
def formatCitationsFirstSeenSpec (chunks : List RetrievedChunk) : String :=
  if chunks = [] then "No sources"
  else String.intercalate "\n"
    (numberedLines 1 (dictFromKeys (chunks.map (fun c => c.citation))))

/-- A legitimate set enumeration that happens to list the distinct
elements in reverse first-seen order; CPython makes no promise that this
ordering cannot occur. -/
def seRev : SetEnum where
  enum := fun l => (dictFromKeys l).reverse
  nodup := fun l => List.nodup_reverse.mpr (dictFromKeys_nodup l)
  mem := fun l x => by rw [List.mem_reverse, dictFromKeys_mem]

/-- A set enumeration in first-seen order (also legitimate). -/
def seFirst : SetEnum where
  enum := dictFromKeys
  nodup := dictFromKeys_nodup
  mem := dictFromKeys_mem

/-- Two chunks with distinct citations. -/
def chunkA : RetrievedChunk :=
  { text := "alpha text"
    document_name := "a.pdf"
    page_number := 1
    chunk_index := 0
    citation := "a.pdf, Page 1, Chunk 0"
    similarity_score := 1
    metadata := ⟨none, none, none, none⟩ }

def chunkB : RetrievedChunk :=
  { text := "beta text"
    document_name := "b.pdf"
    page_number := 1
    chunk_index := 0
    citation := "b.pdf, Page 1, Chunk 0"
    similarity_score := 1
    metadata := ⟨none, none, none, none⟩ }

/-- C6 counterexample: format_citations builds its list through a set, so
a legitimate set-iteration order produces a numbered list that is not in
first-seen order (here: the citations of [chunkA, chunkB] rendered B
before A), refuting the first-seen-order claim for format_citations. -/
theorem format_citations_first_seen_counterexample :
    format_citations seRev [chunkA, chunkB]
      ≠ formatCitationsFirstSeenSpec [chunkA, chunkB] := by
  decide

/-- C6 amended: the citations list of retrieve_with_context and of
multi_query_retrieval is deduplicated in first-seen order (no duplicates,
exactly the citations of the returned chunks, ordered by first
occurrence); format_citations also lists each distinct citation exactly
once as a numbered list, but in the set-iteration order of the runtime,
which is not guaranteed to be first-seen order. -/
theorem citations_dedup_amended (env : SearchEnv) (query : String) (top_k : Nat)
    (min_score : ℚ) (se : SetEnum) (chunks : List RetrievedChunk)
    (hne : chunks ≠ []) :
    (retrieve_with_context env query top_k min_score).citations
        = dictFromKeys ((retrieve_with_context env query top_k min_score).chunks.map
            (fun c => c.citation))
    ∧ (∀ queries : List String,
        (multi_query_retrieval env queries top_k min_score).citations
          = dictFromKeys ((multi_query_retrieval env queries top_k min_score).chunks.map
              (fun c => c.citation)))
    ∧ (∀ l : List String,
        (dictFromKeys l).Nodup
        ∧ (∀ x, x ∈ dictFromKeys l ↔ x ∈ l)
        ∧ List.Pairwise (fun a b => firstIdx a l < firstIdx b l) (dictFromKeys l))
    ∧ format_citations se chunks
        = String.intercalate "\n"
            (numberedLines 1 (se.enum (chunks.map (fun c => c.citation))))
    ∧ (se.enum (chunks.map (fun c => c.citation))).Nodup
    ∧ (∀ x, x ∈ se.enum (chunks.map (fun c => c.citation))
        ↔ x ∈ chunks.map (fun c => c.citation)) := by
  refine ⟨?_, ?_, ?_, ?_, se.nodup _, fun x => se.mem _ x⟩
  · by_cases h : search_documents env query top_k min_score = []
    · simp [retrieve_with_context, h, dictFromKeys, dictFromKeysAux]
    · simp [retrieve_with_context, h]
  · intro queries
    unfold multi_query_retrieval
    by_cases h : List.insertionSort scoreGe
        (multiGo env top_k min_score ([], []) queries).1 = []
    · simp [h, dictFromKeys, dictFromKeysAux]
    · simp [h]
  · intro l
    exact ⟨dictFromKeys_nodup l, dictFromKeys_mem l, dictFromKeysAux_pairwise_firstIdx l []⟩
  · rw [format_citations, if_neg hne]

/-- Witness for citations_dedup_amended at a concrete two-chunk state. -/
theorem citations_dedup_amended_witness :
    (retrieve_with_context envFail "q" 5 (1/2)).citations
        = dictFromKeys ((retrieve_with_context envFail "q" 5 (1/2)).chunks.map
            (fun c => c.citation))
    ∧ format_citations seFirst [chunkA, chunkB]
        = String.intercalate "\n"
            (numberedLines 1 (seFirst.enum ([chunkA, chunkB].map (fun c => c.citation)))) :=
  ⟨(citations_dedup_amended envFail "q" 5 (1/2) seFirst [chunkA, chunkB] (by decide)).1,
    (citations_dedup_amended envFail "q" 5 (1/2) seFirst [chunkA, chunkB] (by decide)).2.2.2.1⟩

/-! ## Pipeline data model, from src/copilot_agents/models.py -/

structure ResearchQuery where
  query : String
  purpose : String
deriving DecidableEq

structure ExecutionPlan where
  task_summary : String
  sub_tasks : List String
  research_queries : List ResearchQuery
  focus_areas : List String
deriving DecidableEq

structure ResearchFinding where
  finding : String
  citation : String
  relevance : String
deriving DecidableEq

structure ResearchNotes where
  findings : List ResearchFinding
  gaps : List String
  sources_used : List String
  summary : String
deriving DecidableEq

structure ActionItem where
  action : String
  owner : String
  due_date : String
  confidence : String
deriving DecidableEq

structure Deliverable where
  executive_summary : String
  client_email : String
  action_items : List ActionItem
  sources : List String
deriving DecidableEq

structure ClaimVerification where
  claim : String
  verdict : String
  supporting_sources : List String
  explanation : String
deriving DecidableEq

/-- VerificationReport of models.py: the three corrected_* fields are
declared Optional with default None; no validator ties them to
overall_verdict. -/
structure VerificationReport where
  overall_verdict : String
  verified_claims : List ClaimVerification
  unsupported_claims : List String
  suggestions : List String
  corrected_executive_summary : Option String
  corrected_client_email : Option String
  corrected_action_items : Option (List ActionItem)
deriving DecidableEq

structure PipelineResult where
  plan : ExecutionPlan
  research : ResearchNotes
  draft : Deliverable
  verification : VerificationReport
  final_deliverable : Deliverable
deriving DecidableEq

/-! ## Verify-stage schema boundary (C7) -/

/-- Structured output for a VerificationReport before schema validation:
each field either supplied or absent. -/
structure RawVerificationReport where
  overall_verdict : Option String
  verified_claims : Option (List ClaimVerification)
  unsupported_claims : Option (List String)
  suggestions : Option (List String)
  corrected_executive_summary : Option (Option String)
  corrected_client_email : Option (Option String)
  corrected_action_items : Option (Option (List ActionItem))
deriving DecidableEq

/-- Schema validation of VerificationReport, models.py lines 83 to 107:
accept exactly when the four fields declared without a default are
present; the corrected_* fields (Optional, default None) become None when
absent.  Nothing relates overall_verdict to the corrected fields. -/
def validateVerificationReport (raw : RawVerificationReport) : Option VerificationReport :=
  match raw.overall_verdict, raw.verified_claims, raw.unsupported_claims, raw.suggestions with
  | some ov, some vc, some uc, some sg =>
    some { overall_verdict := ov
           verified_claims := vc
           unsupported_claims := uc
           suggestions := sg
           corrected_executive_summary := raw.corrected_executive_summary.getD none
           corrected_client_email := raw.corrected_client_email.getD none
           corrected_action_items := raw.corrected_action_items.getD none }
  | _, _, _, _ => none

/-- A FAIL report supplying none of the corrected fields. -/
def rawFailReport : RawVerificationReport :=
  { overall_verdict := some "FAIL"
    verified_claims := some []
    unsupported_claims := some ["retailers lose 4 percent to shrink"]
    suggestions := some []
    corrected_executive_summary := none
    corrected_client_email := none
    corrected_action_items := none }

/-- What schema validation makes of rawFailReport. -/
def failReport : VerificationReport :=
  { overall_verdict := "FAIL"
    verified_claims := []
    unsupported_claims := ["retailers lose 4 percent to shrink"]
    suggestions := []
    corrected_executive_summary := none
    corrected_client_email := none
    corrected_action_items := none }

/-- A PASS report that nevertheless carries a corrected summary. -/
def rawPassWithCorrection : RawVerificationReport :=
  { overall_verdict := some "PASS"
    verified_claims := some []
    unsupported_claims := some []
    suggestions := some []
    corrected_executive_summary := some (some "patched summary")
    corrected_client_email := none
    corrected_action_items := none }

/-- What schema validation makes of rawPassWithCorrection. -/
def passReport : VerificationReport :=
  { overall_verdict := "PASS"
    verified_claims := []
    unsupported_claims := []
    suggestions := []
    corrected_executive_summary := some "patched summary"
    corrected_client_email := none
    corrected_action_items := none }

/-- C7 counterexample: the schema boundary accepts a non-PASS report with
all corrected fields absent, and a PASS report with a corrected field
present, so the conditional presence of the corrected fields is not
enforced by schema validation. -/
theorem corrected_fields_schema_counterexample :
    validateVerificationReport rawFailReport = some failReport
    ∧ failReport.overall_verdict ≠ "PASS"
    ∧ failReport.corrected_executive_summary = none
    ∧ failReport.corrected_client_email = none
    ∧ failReport.corrected_action_items = none
    ∧ validateVerificationReport rawPassWithCorrection = some passReport
    ∧ passReport.overall_verdict = "PASS"
    ∧ passReport.corrected_executive_summary = some "patched summary" := by
  refine ⟨rfl, by decide, rfl, rfl, rfl, rfl, rfl, rfl⟩

/-- C7 amended: the verifier instructions demand corrected fields exactly
when the verdict is not PASS, but the schema-validation boundary does not
check this: validation succeeds exactly when the four required fields are
present, and it passes the corrected fields through unchanged (absent
becomes null) independently of the verdict. -/
theorem verification_report_schema_boundary (raw : RawVerificationReport) :
    ((validateVerificationReport raw).isSome = true
      ↔ raw.overall_verdict.isSome = true ∧ raw.verified_claims.isSome = true
        ∧ raw.unsupported_claims.isSome = true ∧ raw.suggestions.isSome = true)
    ∧ ∀ r, validateVerificationReport raw = some r →
        r.corrected_executive_summary = raw.corrected_executive_summary.getD none
        ∧ r.corrected_client_email = raw.corrected_client_email.getD none
        ∧ r.corrected_action_items = raw.corrected_action_items.getD none
        ∧ (∀ ov, raw.overall_verdict = some ov → r.overall_verdict = ov) := by
  obtain ⟨ov, vc, uc, sg, ce, cc, ca⟩ := raw
  cases ov <;> cases vc <;> cases uc <;> cases sg <;>
    simp [validateVerificationReport]

/-- Witness for verification_report_schema_boundary at rawFailReport. -/
theorem verification_report_schema_boundary_witness :
    (validateVerificationReport rawFailReport).isSome = true
    ∧ failReport.corrected_executive_summary
        = rawFailReport.corrected_executive_summary.getD none := by
  refine ⟨?_, ?_⟩
  · exact (verification_report_schema_boundary rawFailReport).1.mpr (by decide)
  · exact ((verification_report_schema_boundary rawFailReport).2 failReport rfl).1

/-! ## Deliver stage (C1) -/

/-- Modelled from the spec: the Deliver-stage merge of the Pipeline
Orchestrator.  copilot_agents/__init__.py refers to
copilot_agents.orchestrator.run_pipeline, but orchestrator.py is not
among the source files; the merge is therefore taken from the spec,
section 4.4 stage 5: if overall_verdict == PASS the final deliverable is
the draft; otherwise each corrected field substitutes where present and
the draft field is kept where the correction was not supplied. -/
def applyCorrections (draft : Deliverable) (v : VerificationReport) : Deliverable :=
  if v.overall_verdict = "PASS" then draft
  else
    { executive_summary := v.corrected_executive_summary.getD draft.executive_summary
      client_email := v.corrected_client_email.getD draft.client_email
      action_items := v.corrected_action_items.getD draft.action_items
      sources := draft.sources }

/-- Modelled from the spec: the PipelineResult assembled at the end of
run_pipeline, whose final_deliverable is the Deliver-stage merge of the
draft with the verification report. -/
def run_pipeline_result (plan : ExecutionPlan) (research : ResearchNotes)
    (draft : Deliverable) (v : VerificationReport) : PipelineResult :=
  { plan := plan
    research := research
    draft := draft
    verification := v
    final_deliverable := applyCorrections draft v }

/-- C1: the Deliver-stage merge law.  On PASS the final deliverable is
the draft field-for-field; otherwise each of the three content fields
takes the corrected value when the correction is non-null and the draft
value when it is null, and nothing else changes (sources stay the
draft's). -/
theorem deliver_merge_law (plan : ExecutionPlan) (research : ResearchNotes)
    (draft : Deliverable) (v : VerificationReport) :
    (v.overall_verdict = "PASS" →
      (run_pipeline_result plan research draft v).final_deliverable = draft)
    ∧ (v.overall_verdict ≠ "PASS" →
        (∀ s, v.corrected_executive_summary = some s →
          (run_pipeline_result plan research draft v).final_deliverable.executive_summary = s)
        ∧ (v.corrected_executive_summary = none →
          (run_pipeline_result plan research draft v).final_deliverable.executive_summary
            = draft.executive_summary)
        ∧ (∀ s, v.corrected_client_email = some s →
          (run_pipeline_result plan research draft v).final_deliverable.client_email = s)
        ∧ (v.corrected_client_email = none →
          (run_pipeline_result plan research draft v).final_deliverable.client_email
            = draft.client_email)
        ∧ (∀ xs, v.corrected_action_items = some xs →
          (run_pipeline_result plan research draft v).final_deliverable.action_items = xs)
        ∧ (v.corrected_action_items = none →
          (run_pipeline_result plan research draft v).final_deliverable.action_items
            = draft.action_items)
        ∧ (run_pipeline_result plan research draft v).final_deliverable.sources
            = draft.sources) := by
  constructor
  · intro h
    simp [run_pipeline_result, applyCorrections, h]
  · intro h
    refine ⟨?_, ?_, ?_, ?_, ?_, ?_, ?_⟩
    · intro s hs; simp [run_pipeline_result, applyCorrections, h, hs]
    · intro hn; simp [run_pipeline_result, applyCorrections, h, hn]
    · intro s hs; simp [run_pipeline_result, applyCorrections, h, hs]
    · intro hn; simp [run_pipeline_result, applyCorrections, h, hn]
    · intro xs hxs; simp [run_pipeline_result, applyCorrections, h, hxs]
    · intro hn; simp [run_pipeline_result, applyCorrections, h, hn]
    · simp [run_pipeline_result, applyCorrections, h]

def planW : ExecutionPlan := ⟨"", [], [], []⟩

def researchW : ResearchNotes := ⟨[], [], [], ""⟩

def draftW : Deliverable :=
  { executive_summary := "draft summary"
    client_email := "draft email"
    action_items := []
    sources := ["ops.pdf, Page 1, Chunk 0"] }

def vPassW : VerificationReport :=
  { overall_verdict := "PASS"
    verified_claims := []
    unsupported_claims := []
    suggestions := []
    corrected_executive_summary := none
    corrected_client_email := none
    corrected_action_items := none }

def vFailW : VerificationReport :=
  { overall_verdict := "FAIL"
    verified_claims := []
    unsupported_claims := []
    suggestions := []
    corrected_executive_summary := some "corrected summary"
    corrected_client_email := none
    corrected_action_items := none }

/-- Witness for deliver_merge_law: the PASS case keeps the draft, and a
FAIL report with only a corrected summary patches the summary while the
client email falls back to the draft. -/
theorem deliver_merge_law_witness :
    (run_pipeline_result planW researchW draftW vPassW).final_deliverable = draftW
    ∧ (run_pipeline_result planW researchW draftW vFailW).final_deliverable.executive_summary
        = "corrected summary"
    ∧ (run_pipeline_result planW researchW draftW vFailW).final_deliverable.client_email
        = draftW.client_email := by
  refine ⟨(deliver_merge_law planW researchW draftW vPassW).1 rfl, ?_, ?_⟩
  · exact ((deliver_merge_law planW researchW draftW vFailW).2 (by decide)).1
      "corrected summary" rfl
  · exact ((deliver_merge_law planW researchW draftW vFailW).2 (by decide)).2.2.2.1 rfl

/-! ## Agent tool layer, from src/copilot_agents/tools.py -/

/-- Python queries.split(","): split on every comma, keeping empty
components, so "".split(",") is [""] and ",,".split(",") is
["", "", ""]. -/
def pySplitCommaAux (acc : List Char) : List Char → List String
  | [] => [String.mk acc.reverse]
  | c :: rest =>
    if c = ',' then String.mk acc.reverse :: pySplitCommaAux [] rest
    else pySplitCommaAux (c :: acc) rest

def pySplitComma (s : String) : List String := pySplitCommaAux [] s.data

/-- Per-chunk sections of format_context_for_agent, prompting.py lines
19 to 28.  fmtScore stands for the float rendering f-string of the
similarity score, an external-runtime behaviour taken as a parameter. -/
def contextSections (fmtScore : ℚ → String) (include_scores : Bool) :
    Nat → List RetrievedChunk → List String
  | _, [] => []
  | i, c :: rest =>
    (["\n## Source " ++ toString i, "**Citation:** " ++ c.citation]
      ++ (if include_scores then ["**Relevance Score:** " ++ fmtScore c.similarity_score]
          else [])
      ++ ["\n**Content:**\n" ++ c.text, "\n" ++ String.mk (List.replicate 70 '-')])
      ++ contextSections fmtScore include_scores (i + 1) rest

/-- format_context_for_agent of src/retrieval/prompting.py. -/
def format_context_for_agent (fmtScore : ℚ → String)
    (chunks : List RetrievedChunk) (include_scores : Bool) : String :=
  if chunks = [] then "No relevant information found in the documents."
  else String.intercalate "\n"
    (["# Retrieved Information\n",
      "Found " ++ toString chunks.length ++ " relevant sources:\n"]
      ++ contextSections fmtScore include_scores 1 chunks)

/-- External collaborators reachable from the tool layer: the search
environment, the set-iteration order, and the float rendering of
scores. -/
structure ToolEnv where
  search : SearchEnv
  setEnum : SetEnum
  fmtScore : ℚ → String

/-- multi_search_retail_documents of src/copilot_agents/tools.py (the
function wrapped by the function_tool decorator). -/
def multi_search_retail_documents (env : ToolEnv) (queries : String) : String :=
  let query_list := ((pySplitComma queries).map pyStripStr).filter (fun q => !(q == ""))
  if query_list = [] then "No valid queries provided."
  else
    let results := multi_query_retrieval env.search query_list 3 (3/10)
    if results.found = false then
      "Not found in sources. None of the queries returned relevant results from the document set."
    else
      "Combined results from " ++ toString query_list.length ++ " queries:\n\n"
        ++ format_context_for_agent env.fmtScore results.chunks true
        ++ "\n\n## Citations\n" ++ format_citations env.setEnum results.chunks

/-- C10: when every comma-separated component of the tool input strips to
the empty string, the tool answers the fixed no-valid-queries string, the
answer does not depend on any retrieval collaborator, and the string is
distinct from both not-found sentinels (in particular the sentinel prefix
"Not found in sources" does not start it). -/
theorem multi_search_no_valid_queries (env : ToolEnv) (queries : String)
    (h : ∀ q ∈ pySplitComma queries, pyStripStr q = "") :
    multi_search_retail_documents env queries = "No valid queries provided."
    ∧ (∀ env2 : ToolEnv, multi_search_retail_documents env2 queries
        = multi_search_retail_documents env queries)
    ∧ "No valid queries provided."
        ≠ "Not found in sources. The available documents do not contain information to answer this query."
    ∧ "No valid queries provided."
        ≠ "Not found in sources. None of the queries returned relevant results from the document set."
    ∧ ¬ ("Not found in sources".data <+: "No valid queries provided.".data) := by
  have hempty : ((pySplitComma queries).map pyStripStr).filter (fun q => !(q == "")) = [] := by
    refine List.filter_eq_nil_iff.mpr ?_
    intro a ha
    rcases List.mem_map.mp ha with ⟨q, hq, rfl⟩
    rw [h q hq]
    simp
  have hval : multi_search_retail_documents env queries = "No valid queries provided." := by
    unfold multi_search_retail_documents
    rw [hempty]
    rfl
  refine ⟨hval, ?_, by decide, by decide, by decide⟩
  intro env2
  rw [hval]
  unfold multi_search_retail_documents
  rw [hempty]
  rfl

/-- A trivial tool environment for the witness. -/
def envTriv : ToolEnv := ⟨envFail, seFirst, fun _ => ""⟩

/-- Witness for multi_search_no_valid_queries on the input ",,". -/
theorem multi_search_no_valid_queries_witness :
    multi_search_retail_documents envTriv ",," = "No valid queries provided." :=
  (multi_search_no_valid_queries envTriv ",," (by decide)).1

end RetailOps
